import Mathlib

/-!
Verification of the Hytale wiki bot's search/resolution pipeline (`bot.py`).

The remote MediaWiki API and the network transport are modelled by an
oracle assigning to each endpoint the `Response` (HTTP status plus decoded
JSON body, `none` for an undecodable body) the remote returned during one
command invocation.  Python's dynamic dictionary/list operations are
modelled over a `Json` value type; operations that raise in Python
(attribute errors on non-dicts, index errors, type errors) return
`Except.error` here, so "never raises" claims are expressible.

The rapidfuzz scorer (`fuzz.WRatio`) is an external library; it is kept
abstract as a `String → String → Nat` parameter and `process.extract` is
modelled from rapidfuzz's documented contract: score every non-null choice
(raising a type error on a non-string choice), order descending by score,
keep the best `limit`.
-/

namespace HytaleWiki

/-- JSON values, the decoded bodies of API responses. -/
inductive Json where
  | null : Json
  | bool : Bool → Json
  | num : Int → Json
  | str : String → Json
  | arr : List Json → Json
  | obj : List (String × Json) → Json
  deriving Repr, Inhabited

mutual

def Json.decEq : (a b : Json) → Decidable (a = b)
  | .null, .null => isTrue rfl
  | .bool x, .bool y =>
    if h : x = y then isTrue (by rw [h]) else isFalse (fun hh => h (Json.bool.inj hh))
  | .num x, .num y =>
    if h : x = y then isTrue (by rw [h]) else isFalse (fun hh => h (Json.num.inj hh))
  | .str x, .str y =>
    if h : x = y then isTrue (by rw [h]) else isFalse (fun hh => h (Json.str.inj hh))
  | .arr xs, .arr ys =>
    match Json.decEqList xs ys with
    | isTrue h => isTrue (by rw [h])
    | isFalse h => isFalse (fun hh => h (Json.arr.inj hh))
  | .obj xs, .obj ys =>
    match Json.decEqObj xs ys with
    | isTrue h => isTrue (by rw [h])
    | isFalse h => isFalse (fun hh => h (Json.obj.inj hh))
  | .null, .bool _ | .null, .num _ | .null, .str _ | .null, .arr _ | .null, .obj _
  | .bool _, .null | .bool _, .num _ | .bool _, .str _ | .bool _, .arr _ | .bool _, .obj _
  | .num _, .null | .num _, .bool _ | .num _, .str _ | .num _, .arr _ | .num _, .obj _
  | .str _, .null | .str _, .bool _ | .str _, .num _ | .str _, .arr _ | .str _, .obj _
  | .arr _, .null | .arr _, .bool _ | .arr _, .num _ | .arr _, .str _ | .arr _, .obj _
  | .obj _, .null | .obj _, .bool _ | .obj _, .num _ | .obj _, .str _ | .obj _, .arr _ =>
    isFalse (fun h => Json.noConfusion h)

def Json.decEqList : (a b : List Json) → Decidable (a = b)
  | [], [] => isTrue rfl
  | [], _ :: _ => isFalse (fun h => List.noConfusion h)
  | _ :: _, [] => isFalse (fun h => List.noConfusion h)
  | x :: xs, y :: ys =>
    match Json.decEq x y with
    | isFalse h => isFalse (fun hh => h (List.cons.inj hh).1)
    | isTrue h1 =>
      match Json.decEqList xs ys with
      | isTrue h2 => isTrue (by rw [h1, h2])
      | isFalse h => isFalse (fun hh => h (List.cons.inj hh).2)

def Json.decEqObj : (a b : List (String × Json)) → Decidable (a = b)
  | [], [] => isTrue rfl
  | [], _ :: _ => isFalse (fun h => List.noConfusion h)
  | _ :: _, [] => isFalse (fun h => List.noConfusion h)
  | (k1, v1) :: xs, (k2, v2) :: ys =>
    if hk : k1 = k2 then
      match Json.decEq v1 v2 with
      | isFalse h =>
        isFalse (fun hh => h (congrArg Prod.snd (List.cons.inj hh).1))
      | isTrue h1 =>
        match Json.decEqObj xs ys with
        | isTrue h2 => isTrue (by rw [hk, h1, h2])
        | isFalse h => isFalse (fun hh => h (List.cons.inj hh).2)
    else isFalse (fun hh => hk (congrArg Prod.fst (List.cons.inj hh).1))

end

instance : DecidableEq Json := Json.decEq

/-- The Python exceptions the client code can raise. -/
inductive PyErr where
  | attributeError : PyErr
  | typeError : PyErr
  | keyError : PyErr
  | indexError : PyErr
  | decodeError : PyErr
  deriving Repr, DecidableEq

/-- Computations that may raise a Python exception. -/
abbrev Py (α : Type) := Except PyErr α

/-- Python `d.get(k, default)`: raises `AttributeError` on a non-dict receiver. -/
def Json.getD (j : Json) (k : String) (d : Json) : Py Json :=
  match j with
  | .obj fields => .ok ((fields.lookup k).getD d)
  | _ => .error .attributeError

/-- Python `d.items()`: raises `AttributeError` on a non-dict receiver. -/
def Json.items : Json → Py (List (String × Json))
  | .obj fields => .ok fields
  | _ => .error .attributeError

/-- Python `len(x)`. -/
def Json.pyLen : Json → Py Nat
  | .arr xs => .ok xs.length
  | .obj fs => .ok fs.length
  | .str s => .ok s.length
  | _ => .error .typeError

/-- Python `x[i]` for a non-negative integer index. -/
def Json.pyIndex (j : Json) (i : Nat) : Py Json :=
  match j with
  | .arr xs =>
    match xs[i]? with
    | some x => .ok x
    | none => .error .indexError
  | .str s =>
    match s.toList[i]? with
    | some c => .ok (.str (String.mk [c]))
    | none => .error .indexError
  | .obj _ => .error .keyError
  | _ => .error .typeError

/-- Python iteration over a value (lists give elements, strings characters,
dicts keys); raises `TypeError` otherwise. -/
def Json.pyIter : Json → Py (List Json)
  | .arr xs => .ok xs
  | .str s => .ok (s.toList.map fun c => .str (String.mk [c]))
  | .obj fs => .ok (fs.map fun kv => .str kv.1)
  | _ => .error .typeError

/-- Left-to-right non-overlapping replacement of a non-empty pattern,
as Python `str.replace` does it (the fuel argument, instantiated with the
string length, only makes the recursion structural: each step consumes at
least one character). -/
def listReplaceFuel (pat rep : List Char) : Nat → List Char → List Char
  | _, [] => []
  | 0, s => s
  | fuel + 1, c :: rest =>
    if pat ≠ [] ∧ pat.isPrefixOf (c :: rest) then
      rep ++ listReplaceFuel pat rep fuel (List.drop pat.length (c :: rest))
    else
      c :: listReplaceFuel pat rep fuel rest

/-- Python `s.replace(pat, rep)` for a non-empty pattern. -/
def strReplace (s pat rep : String) : String :=
  String.mk (listReplaceFuel pat.data rep.data s.data.length s.data)

/-- Python `x.replace(pat, rep)`: only strings have `.replace`. -/
def Json.pyReplace (j : Json) (pat rep : String) : Py String :=
  match j with
  | .str s => .ok (strReplace s pat rep)
  | _ => .error .attributeError

/-- One HTTP response: status code and decoded JSON body
(`none` when the body is not decodable JSON). -/
structure Response where
  status : Nat
  body : Option Json
  deriving Repr, DecidableEq

/-- `await resp.json()`: raises a decode error on an undecodable body. -/
def Response.json (r : Response) : Py Json :=
  match r.body with
  | some j => .ok j
  | none => .error .decodeError

def WIKI_BASE_URL : String := "https://hytalewiki.org"

/-- A search-result record (the dicts built by `WikiAPI.search`,
`WikiAPI.search_full` and `WikiAPI.fuzzy_search`): `title`, `description`
and `url` keys (arbitrary JSON values in general), plus the optional
`score` key that only the fuzzy stages attach. -/
structure Candidate where
  title : Json
  description : Json
  url : Json
  score : Option Nat
  deriving Repr, DecidableEq

/-- The dict returned by `WikiAPI.get_page_extract` on success:
`title`, `extract`, `url` and `thumbnail` keys (`thumbnail` is `null`
when the response has no thumbnail source). -/
structure Page where
  title : Json
  extract : Json
  url : Json
  thumbnail : Json
  deriving Repr, DecidableEq

/-- Embeds `WikiAPI.search` (bot.py lines 45-66): opensearch endpoint.
On a 200 response whose JSON has length at least 4, zips entries 1, 2, 3
into title/description/url records; otherwise returns the empty list. -/
def search (resp : Response) : Py (List Candidate) := do
  if resp.status = 200 then
    let data ← resp.json
    let n ← data.pyLen
    if 4 ≤ n then
      let titles ← data.pyIndex 1
      let descriptions ← data.pyIndex 2
      let urls ← data.pyIndex 3
      let ts ← titles.pyIter
      let ds ← descriptions.pyIter
      let us ← urls.pyIter
      pure ((ts.zip (ds.zip us)).map fun tdu =>
        { title := tdu.1, description := tdu.2.1, url := tdu.2.2, score := none })
    else
      pure []
  else
    pure []

/-- One result dict built inside `WikiAPI.search_full`'s comprehension:
evaluates `r.get("title")`, strips the search-match markup from
`r.get("snippet", "")`, and synthesizes the url from the title by
replacing spaces with underscores (which raises when the title is not a
string, exactly as in the source's f-string). -/
def mkFullCandidate (r : Json) : Py Candidate := do
  let t ← r.getD "title" .null
  let snip ← r.getD "snippet" (.str "")
  let d1 ← snip.pyReplace "<span class=\"searchmatch\">" ""
  let d := strReplace d1 "</span>" ""
  let t2 ← r.getD "title" .null
  let u ← t2.pyReplace " " "_"
  pure { title := t, description := .str d,
         url := .str (WIKI_BASE_URL ++ "/w/" ++ u), score := none }

/-- Embeds `WikiAPI.search_full` (bot.py lines 68-90): full-text search
endpoint, reading `data["query"]["search"]` with defaults and building a
record per result. -/
def search_full (resp : Response) : Py (List Candidate) := do
  if resp.status = 200 then
    let data ← resp.json
    let q ← data.getD "query" (.obj [])
    let searchJ ← q.getD "search" (.arr [])
    let results ← searchJ.pyIter
    results.mapM mkFullCandidate
  else
    pure []

/-- Embeds `WikiAPI.get_all_pages` (bot.py lines 92-107): collects
`p.get("title")` (null when absent) for each entry of
`data["query"]["allpages"]`. -/
def get_all_pages (resp : Response) : Py (List Json) := do
  if resp.status = 200 then
    let data ← resp.json
    let q ← data.getD "query" (.obj [])
    let pagesJ ← q.getD "allpages" (.arr [])
    let pages ← pagesJ.pyIter
    pages.mapM (fun p => p.getD "title" .null)
  else
    pure []

/-- The prefix of `get_page_extract` and `get_categories` that digs out
`data["query"]["pages"]` as a key/value list (Python `pages.items()`). -/
def pagesOf (resp : Response) : Py (List (String × Json)) := do
  let data ← resp.json
  let q ← data.getD "query" (.obj [])
  let pagesJ ← q.getD "pages" (.obj [])
  pagesJ.items

/-- Embeds `WikiAPI.get_page_extract` (bot.py lines 109-139): examines the
first entry of the pages object; returns `none` on a non-200 status, an
empty pages object, or the sentinel page id "-1"; otherwise builds the
page record with the source's defaults for missing keys. -/
def get_page_extract (resp : Response) (title : String) : Py (Option Page) := do
  if resp.status = 200 then
    let pages ← pagesOf resp
    match pages with
    | [] => pure none
    | (page_id, page_data) :: _ =>
      if page_id = "-1" then
        pure none
      else
        let t ← page_data.getD "title" (.str title)
        let e ← page_data.getD "extract" (.str "Sin descripción disponible.")
        let u ← page_data.getD "fullurl" (.str (WIKI_BASE_URL ++ "/w/" ++ title))
        let thD ← page_data.getD "thumbnail" (.obj [])
        let th ← thD.getD "source" .null
        pure (some { title := t, extract := e, url := u, thumbnail := th })
  else
    pure none

/-- Embeds `WikiAPI.get_categories` (bot.py lines 160-181): for the first
page entry, maps each category to its title with the "Category:" prefix
stripped. -/
def get_categories (resp : Response) : Py (List String) := do
  if resp.status = 200 then
    let pages ← pagesOf resp
    match pages with
    | [] => pure []
    | (_, page_data) :: _ =>
      let catsJ ← page_data.getD "categories" (.arr [])
      let cats ← catsJ.pyIter
      cats.mapM (fun cat => do
        let t ← cat.getD "title" (.str "")
        t.pyReplace "Category:" "")
  else
    pure []

/-- Scores every choice with the scorer, skipping nulls (rapidfuzz ignores
`None` choices) and raising a type error on any other non-string choice
(as `fuzz.WRatio` does). -/
def scoreChoices (scorer : String → String → Nat) (query : String) :
    List Json → Py (List (String × Nat))
  | [] => .ok []
  | .null :: rest => scoreChoices scorer query rest
  | .str s :: rest =>
    match scoreChoices scorer query rest with
    | .ok tail => .ok ((s, scorer query s) :: tail)
    | .error e => .error e
  | _ :: _ => .error .typeError

/-- Descending-score order on (title, score) pairs. -/
def scoreGe (a b : String × Nat) : Prop := b.2 ≤ a.2

instance : DecidableRel scoreGe := fun a b => Nat.decLe b.2 a.2

instance : IsTotal (String × Nat) scoreGe := ⟨fun a b => Nat.le_total b.2 a.2⟩

instance : IsTrans (String × Nat) scoreGe := ⟨fun _ _ _ hab hbc => Nat.le_trans hbc hab⟩

/-- Models rapidfuzz `process.extract(query, choices, scorer, limit)` from
its documented contract: the best `limit` (choice, score) pairs, ordered
descending by score. -/
def extract (scorer : String → String → Nat) (query : String) (choices : List Json)
    (limit : Nat) : Py (List (String × Nat)) := do
  let scored ← scoreChoices scorer query choices
  pure ((scored.insertionSort scoreGe).take limit)

/-- The candidate records synthesized by `fuzzy_search`'s stage 2 from the
threshold-filtered matches (bot.py lines 202-212). -/
def stage2Records (threshold : Nat) (ms : List (String × Nat)) : List Candidate :=
  (ms.filter fun m => threshold ≤ m.2).map fun m =>
    { title := .str m.1,
      description := .str ("Coincidencia: " ++ toString m.2 ++ "%"),
      url := .str (WIKI_BASE_URL ++ "/w/" ++ strReplace m.1 " " "_"),
      score := some m.2 }

/-- Stage 3's reordering loop (bot.py lines 229-237): for each fuzzy match
in order, the first result dict with that title gets the score attached
and is appended; matches finding no result contribute nothing. -/
def rescore (ms : List (String × Nat)) (results : List Candidate) : List Candidate :=
  ms.filterMap fun m =>
    (results.find? fun r => r.title == .str m.1).map fun r =>
      { r with score := some m.2 }

/-- The remote responses observed by one command invocation: one response
per endpoint (the query-dependent parameters of each request are fixed
within an invocation), with the extract/categories endpoints keyed by the
title value they are invoked on. -/
structure Oracle where
  searchResp : Response
  allPagesResp : Response
  searchFullResp : Response
  extractResp : Json → Response
  categoriesResp : Json → Response

/-- Stage 2 of the cascade (bot.py lines 189-212), reached with an empty
stage-1 result: fuzzy-rank the `get_all_pages` title sample and keep the
matches at or above the threshold (the empty sample leaves the empty
result list unchanged). -/
def fuzzyStage2 (scorer : String → String → Nat) (o : Oracle) (query : String)
    (threshold : Nat) : Py (List Candidate) := do
  let all_pages ← get_all_pages o.allPagesResp
  if all_pages.isEmpty then
    pure []
  else do
    let ms ← extract scorer query all_pages 5
    pure (stage2Records threshold ms)

/-- Stage 3 of the cascade (bot.py lines 214-237), reached with stages 1
and 2 empty: re-rank the `search_full` result titles and reorder the
records by fuzzy score. -/
def fuzzyStage3 (scorer : String → String → Nat) (o : Oracle) (query : String) :
    Py (List Candidate) := do
  let results2 ← search_full o.searchFullResp
  if results2.isEmpty then
    pure results2
  else do
    let ms ← extract scorer query (results2.map (fun r => r.title)) 5
    pure (rescore ms results2)

/-- Embeds `WikiAPI.fuzzy_search` (bot.py lines 183-239): stage 1 is
`search` with limit 10; if empty, stage 2 fuzzy-ranks the `get_all_pages`
title sample and keeps matches at or above the threshold; if still empty,
stage 3 re-ranks the `search_full` results by fuzzy score. -/
def fuzzy_search (scorer : String → String → Nat) (o : Oracle) (query : String)
    (threshold : Nat) : Py (List Candidate) :=
  search o.searchResp >>= fun results =>
  (if results.isEmpty then fuzzyStage2 scorer o query threshold else pure results) >>=
    fun results1 =>
  if results1.isEmpty then fuzzyStage3 scorer o query else pure results1

/-- The three user-visible outcomes of the /wiki command: a rendered page
with its categories, a suggestions list, or the "not found" message. -/
inductive Outcome where
  | page : Page → List String → Outcome
  | suggestions : List Candidate → Outcome
  | notFound : Outcome
  deriving Repr, DecidableEq

/-- Embeds the /wiki command handler `wiki_command` (bot.py lines 305-340):
direct `get_page_extract` lookup first; otherwise the fuzzy cascade, with
re-resolution of the best match when its score (default 0) is at least 85,
falling back to the suggestions list when re-resolution misses. -/
def wiki_command (scorer : String → String → Nat) (o : Oracle) (articulo : String) :
    Py Outcome := do
  let page ← get_page_extract (o.extractResp (.str articulo)) articulo
  match page with
  | some p => do
    let categories ← get_categories (o.categoriesResp (.str articulo))
    pure (.page p categories)
  | none => do
    let results ← fuzzy_search scorer o articulo 60
    match results with
    | [] => pure .notFound
    | best :: rest =>
      if 85 ≤ best.score.getD 0 then
        match best.title with
        | .str t => do
          let page2 ← get_page_extract (o.extractResp best.title) t
          match page2 with
          | some p => do
            let categories ← get_categories (o.categoriesResp best.title)
            pure (.page p categories)
          | none => pure (.suggestions (best :: rest))
        | _ => .error .typeError
      else
        pure (.suggestions (best :: rest))

/-- A toy scorer with rapidfuzz's exact-match property (identical strings
score 100), used to instantiate the abstract scorer in concrete runs. -/
def exactScorer (a b : String) : Nat := if a = b then 100 else 0

/-- A failed request (connection-level failure surfaced as a 404 with an
undecodable body). -/
def noResp : Response := { status := 404, body := none }

section PyLemmas

theorem py_bind_ok {α β : Type} {x : Py α} {f : α → Py β} {b : β} :
    x >>= f = .ok b ↔ ∃ a, x = .ok a ∧ f a = .ok b := by
  cases x <;> simp [Bind.bind, Except.bind]

theorem py_pure_ok {α : Type} {a b : α} : (pure a : Py α) = .ok b ↔ a = b := by
  constructor
  · intro h
    exact Except.ok.inj h
  · intro h
    rw [h]
    rfl

instance exceptDecEq {ε α : Type} [DecidableEq ε] [DecidableEq α] :
    DecidableEq (Except ε α) := fun x y =>
  match x, y with
  | .ok a, .ok b =>
    if h : a = b then isTrue (by rw [h]) else isFalse fun hh => h (Except.ok.inj hh)
  | .error a, .error b =>
    if h : a = b then isTrue (by rw [h]) else isFalse fun hh => h (Except.error.inj hh)
  | .ok _, .error _ => isFalse fun hh => Except.noConfusion hh
  | .error _, .ok _ => isFalse fun hh => Except.noConfusion hh

theorem py_ok_bind {α β : Type} {a : α} {f : α → Py β} :
    ((Except.ok a : Py α) >>= f) = f a := rfl

theorem py_pure_bind {α β : Type} {a : α} {f : α → Py β} :
    ((pure a : Py α) >>= f) = f a := rfl

theorem py_error_bind {α β : Type} {e : PyErr} {f : α → Py β} :
    ((Except.error e : Py α) >>= f) = .error e := rfl

end PyLemmas

/-- C2 (amended): on any non-200 transport status, every Wiki Query Client
operation returns the empty sequence (and `get_page_extract` returns none)
without raising; a 200 response with a malformed or unexpectedly shaped
JSON payload instead makes the operation raise (see the counterexample). -/
theorem client_empty_on_non200 (resp : Response) (h : resp.status ≠ 200) :
    search resp = .ok [] ∧ search_full resp = .ok [] ∧ get_all_pages resp = .ok [] ∧
    get_categories resp = .ok [] ∧ ∀ t, get_page_extract resp t = .ok none := by
  refine ⟨?_, ?_, ?_, ?_, fun t => ?_⟩ <;>
    simp [search, search_full, get_all_pages, get_categories, get_page_extract, h,
      py_pure_ok]

/-- Witness for C2's amended theorem: the client operations on a failed
request (no 200 status, undecodable body). -/
theorem client_empty_on_non200_witness :
    search noResp = .ok [] ∧ search_full noResp = .ok [] ∧ get_all_pages noResp = .ok [] ∧
    get_categories noResp = .ok [] ∧ get_page_extract noResp "Kweebec" = .ok none := by
  have h := client_empty_on_non200 noResp (by decide)
  exact ⟨h.1, h.2.1, h.2.2.1, h.2.2.2.1, h.2.2.2.2 "Kweebec"⟩

/-- C2 counterexample: a 200 response whose JSON payload is a list (an
unexpected shape for the full-text search endpoint) makes `search_full`
raise an AttributeError — Python's `data.get` on a list — instead of
returning the empty sequence, so the operation does raise to its caller
on a malformed payload. -/
theorem search_full_raises_on_malformed :
    search_full { status := 200, body := some (.arr []) } = .error .attributeError ∧
    search_full { status := 200, body := some (.arr []) } ≠ .ok [] := by
  exact ⟨rfl, by decide⟩

/-- When the pages object parses to a first entry whose value is a dict
and `get_page_extract` succeeds with a page, every field of that page is
the response's value for the corresponding key, with the source's default
when the key is absent (and the thumbnail value must be a dict). -/
theorem get_page_extract_fields (resp : Response) (t pid : String)
    (kvs : List (String × Json)) (rest : List (String × Json)) (p : Page)
    (hp : pagesOf resp = .ok ((pid, Json.obj kvs) :: rest))
    (hok : get_page_extract resp t = .ok (some p)) :
    pid ≠ "-1" ∧
    p.title = (kvs.lookup "title").getD (.str t) ∧
    p.extract = (kvs.lookup "extract").getD (.str "Sin descripción disponible.") ∧
    p.url = (kvs.lookup "fullurl").getD (.str (WIKI_BASE_URL ++ "/w/" ++ t)) ∧
    ∃ tkvs, (kvs.lookup "thumbnail").getD (Json.obj []) = Json.obj tkvs ∧
      p.thumbnail = (tkvs.lookup "source").getD Json.null := by
  by_cases h200 : resp.status = 200
  · by_cases hpid : pid = "-1"
    · exfalso
      subst hpid
      simp [get_page_extract, h200, hp, py_ok_bind, py_pure_ok] at hok
    · refine ⟨hpid, ?_⟩
      simp only [get_page_extract, h200, if_true, hp, py_ok_bind, hpid, if_false,
        if_neg hpid, Json.getD] at hok
      cases hl : (kvs.lookup "thumbnail").getD (Json.obj []) with
      | obj tkvs =>
        rw [hl] at hok
        simp only [py_ok_bind, py_pure_ok] at hok
        obtain rfl := Option.some.inj hok
        exact ⟨rfl, rfl, rfl, tkvs, rfl, rfl⟩
      | null => rw [hl] at hok; exact absurd hok (by simp [py_error_bind])
      | bool b => rw [hl] at hok; exact absurd hok (by simp [py_error_bind])
      | num n => rw [hl] at hok; exact absurd hok (by simp [py_error_bind])
      | str s => rw [hl] at hok; exact absurd hok (by simp [py_error_bind])
      | arr xs => rw [hl] at hok; exact absurd hok (by simp [py_error_bind])
  · exfalso
    simp [get_page_extract, h200, py_pure_ok] at hok

/-- A 200 response whose first page entry does not carry the sentinel id
never yields the `none` outcome: it either succeeds with a page or raises. -/
theorem get_page_extract_ne_none (resp : Response) (t pid : String) (pd : Json)
    (rest : List (String × Json))
    (h200 : resp.status = 200)
    (hp : pagesOf resp = .ok ((pid, pd) :: rest))
    (hpid : pid ≠ "-1") :
    get_page_extract resp t ≠ .ok none := by
  simp only [get_page_extract, h200, if_true, hp, py_ok_bind, if_neg hpid]
  cases pd with
  | obj kvs =>
    simp only [Json.getD, py_ok_bind]
    cases hl : (kvs.lookup "thumbnail").getD (Json.obj []) <;>
      simp [hl, Json.getD, py_ok_bind, py_error_bind, py_pure_ok]
  | null => simp [Json.getD, py_error_bind]
  | bool b => simp [Json.getD, py_error_bind]
  | num n => simp [Json.getD, py_error_bind]
  | str s => simp [Json.getD, py_error_bind]
  | arr xs => simp [Json.getD, py_error_bind]

/-- C7: `get_page_extract` returns `none` exactly when the request fails
(non-200 status or a pages object with no entries) or the first page entry
carries the sentinel missing-page id "-1"; otherwise, when it returns a
page, every field is the canonical value from the response whenever the
response carries that key (so the title is the response's canonical title,
not necessarily the caller's input spelling). -/
theorem get_page_extract_spec (resp : Response) (t : String) :
    (resp.status ≠ 200 → get_page_extract resp t = .ok none) ∧
    (∀ pages, resp.status = 200 → pagesOf resp = .ok pages →
      ((get_page_extract resp t = .ok none ↔
        pages = [] ∨ ∃ pd rest, pages = ("-1", pd) :: rest)) ∧
      (∀ pid kvs rest p, pages = (pid, Json.obj kvs) :: rest →
        get_page_extract resp t = .ok (some p) →
          (∀ ct, kvs.lookup "title" = some ct → p.title = ct) ∧
          (∀ ce, kvs.lookup "extract" = some ce → p.extract = ce) ∧
          (∀ cu, kvs.lookup "fullurl" = some cu → p.url = cu) ∧
          (∀ tkvs, kvs.lookup "thumbnail" = some (Json.obj tkvs) →
            p.thumbnail = (tkvs.lookup "source").getD Json.null))) := by
  constructor
  · intro h
    simp [get_page_extract, h, py_pure_ok]
  · intro pages h200 hp
    constructor
    · constructor
      · intro hnone
        by_contra hcon
        push_neg at hcon
        obtain ⟨hne, hns⟩ := hcon
        cases pages with
        | nil => exact hne rfl
        | cons hd tl =>
          obtain ⟨pid, pd⟩ := hd
          by_cases hpid : pid = "-1"
          · subst hpid
            exact hns pd tl rfl
          · exact get_page_extract_ne_none resp t pid pd tl h200 hp hpid hnone
      · intro hcase
        rcases hcase with rfl | ⟨pd, rest, rfl⟩
        · simp [get_page_extract, h200, hp, py_ok_bind, py_pure_ok]
        · simp [get_page_extract, h200, hp, py_ok_bind, py_pure_ok]
    · intro pid kvs rest p hpages hok
      subst hpages
      obtain ⟨-, ht, he, hu, tkvs, hth, hpth⟩ :=
        get_page_extract_fields resp t pid kvs rest p hp hok
      refine ⟨?_, ?_, ?_, ?_⟩
      · intro ct hct
        rw [ht, hct]
        rfl
      · intro ce hce
        rw [he, hce]
        rfl
      · intro cu hcu
        rw [hu, hcu]
        rfl
      · intro tkvs' hth'
        rw [hth'] at hth
        obtain rfl : tkvs' = tkvs := by simpa using hth
        exact hpth

/-- The pages-object fields of the response used to witness C7. -/
def kvs7 : List (String × Json) :=
  [("title", .str "Kweebec"), ("extract", .str "A plant race."),
   ("fullurl", .str "https://hytalewiki.org/wiki/Kweebec"),
   ("thumbnail", .obj [("source", .str "thumb.png")])]

/-- A well-shaped successful extract response. -/
def resp7 : Response :=
  { status := 200, body := some (.obj [("query", .obj [("pages", .obj [("123", .obj kvs7)])])]) }

/-- The page record `get_page_extract` builds from `resp7`. -/
def page7 : Page :=
  { title := .str "Kweebec", extract := .str "A plant race.",
    url := .str "https://hytalewiki.org/wiki/Kweebec", thumbnail := .str "thumb.png" }

/-- Witness for C7: querying with the misspelled title "kweebek", the page
comes back with the response's canonical title "Kweebec". -/
theorem get_page_extract_spec_witness :
    get_page_extract resp7 "kweebek" = .ok (some page7) ∧ page7.title = .str "Kweebec" := by
  have h := ((get_page_extract_spec resp7 "kweebek").2 [("123", Json.obj kvs7)] rfl rfl).2
      "123" kvs7 [] page7 rfl rfl
  exact ⟨rfl, h.1 (.str "Kweebec") rfl⟩

/-- C10: when `get_page_extract` resolves a page whose response omits the
extract field, the page's extract is the fixed placeholder
"Sin descripción disponible."; likewise a missing fullurl is replaced by a
URL synthesized from the requested title. -/
theorem get_page_extract_default_fields (resp : Response) (t pid : String)
    (kvs rest : List (String × Json)) (p : Page)
    (hp : pagesOf resp = .ok ((pid, Json.obj kvs) :: rest))
    (hok : get_page_extract resp t = .ok (some p)) :
    (kvs.lookup "extract" = none → p.extract = .str "Sin descripción disponible.") ∧
    (kvs.lookup "fullurl" = none → p.url = .str (WIKI_BASE_URL ++ "/w/" ++ t)) := by
  obtain ⟨-, -, he, hu, -⟩ := get_page_extract_fields resp t pid kvs rest p hp hok
  constructor
  · intro h
    rw [he, h]
    rfl
  · intro h
    rw [hu, h]
    rfl

/-- The response used to witness C10: a resolved page carrying only a title. -/
def resp10 : Response :=
  { status := 200,
    body := some (.obj [("query", .obj [("pages",
      .obj [("7", .obj [("title", .str "Kweebec")])])])]) }

/-- The page record `get_page_extract` builds from `resp10`. -/
def page10 : Page :=
  { title := .str "Kweebec", extract := .str "Sin descripción disponible.",
    url := .str "https://hytalewiki.org/w/Kweebec", thumbnail := .null }

/-- Witness for C10: with extract and fullurl absent from the response the
placeholder description and the synthesized URL are used. -/
theorem get_page_extract_default_fields_witness :
    get_page_extract resp10 "Kweebec" = .ok (some page10) ∧
    page10.extract = .str "Sin descripción disponible." ∧
    page10.url = .str "https://hytalewiki.org/w/Kweebec" := by
  have h := get_page_extract_default_fields resp10 "Kweebec" "7"
      [("title", .str "Kweebec")] [] page10 rfl rfl
  exact ⟨rfl, h.1 rfl, by rw [h.2 rfl]; rfl⟩

section ClientLemmas

/-- Every record built by `search` has no score key. -/
theorem search_score_none {resp : Response} {cs : List Candidate}
    (h : search resp = .ok cs) : ∀ c ∈ cs, c.score = none := by
  unfold search at h
  split at h
  · obtain ⟨data, -, h⟩ := py_bind_ok.mp h
    obtain ⟨n, -, h⟩ := py_bind_ok.mp h
    split at h
    · obtain ⟨t1, -, h⟩ := py_bind_ok.mp h
      obtain ⟨t2, -, h⟩ := py_bind_ok.mp h
      obtain ⟨t3, -, h⟩ := py_bind_ok.mp h
      obtain ⟨ts, -, h⟩ := py_bind_ok.mp h
      obtain ⟨ds, -, h⟩ := py_bind_ok.mp h
      obtain ⟨us, -, h⟩ := py_bind_ok.mp h
      obtain rfl := py_pure_ok.mp h
      intro c hc
      obtain ⟨tdu, -, rfl⟩ := List.mem_map.mp hc
      rfl
    · obtain rfl := py_pure_ok.mp h
      intro c hc
      exact absurd hc (List.not_mem_nil c)
  · obtain rfl := py_pure_ok.mp h
    intro c hc
    exact absurd hc (List.not_mem_nil c)

theorem mapM_py_mem {α β : Type} {f : α → Py β} {l : List α} {out : List β}
    (h : l.mapM f = .ok out) : ∀ b ∈ out, ∃ a ∈ l, f a = .ok b := by
  induction l generalizing out with
  | nil =>
    rw [List.mapM_nil] at h
    obtain rfl := py_pure_ok.mp h
    intro b hb
    exact absurd hb (List.not_mem_nil b)
  | cons x xs ih =>
    rw [List.mapM_cons] at h
    obtain ⟨b, hb, h⟩ := py_bind_ok.mp h
    obtain ⟨bs, hbs, h⟩ := py_bind_ok.mp h
    obtain rfl := py_pure_ok.mp h
    intro c hc
    rcases List.mem_cons.mp hc with rfl | hc
    · exact ⟨x, List.mem_cons_self x xs, hb⟩
    · obtain ⟨a, ha, hfa⟩ := ih hbs c hc
      exact ⟨a, List.mem_cons_of_mem _ ha, hfa⟩

/-- A successfully built full-search record has a string title (the url
synthesis calls `.replace` on the title, which raises otherwise) and no
score key. -/
theorem mkFullCandidate_fields {r : Json} {c : Candidate}
    (h : mkFullCandidate r = .ok c) : (∃ s, c.title = .str s) ∧ c.score = none := by
  unfold mkFullCandidate at h
  obtain ⟨t, ht, h⟩ := py_bind_ok.mp h
  obtain ⟨snip, -, h⟩ := py_bind_ok.mp h
  obtain ⟨d1, -, h⟩ := py_bind_ok.mp h
  obtain ⟨t2, ht2, h⟩ := py_bind_ok.mp h
  obtain ⟨u, hu, h⟩ := py_bind_ok.mp h
  obtain rfl := py_pure_ok.mp h
  obtain rfl : t = t2 := Except.ok.inj (ht.symm.trans ht2)
  cases t with
  | str s => exact ⟨⟨s, rfl⟩, rfl⟩
  | null => exact absurd hu (by simp [Json.pyReplace])
  | bool b => exact absurd hu (by simp [Json.pyReplace])
  | num n => exact absurd hu (by simp [Json.pyReplace])
  | arr xs => exact absurd hu (by simp [Json.pyReplace])
  | obj kvs => exact absurd hu (by simp [Json.pyReplace])

/-- Every record in a successful `search_full` result has a string title
and no score key. -/
theorem search_full_fields {resp : Response} {cs : List Candidate}
    (h : search_full resp = .ok cs) :
    ∀ c ∈ cs, (∃ s, c.title = .str s) ∧ c.score = none := by
  unfold search_full at h
  split at h
  · obtain ⟨data, -, h⟩ := py_bind_ok.mp h
    obtain ⟨q, -, h⟩ := py_bind_ok.mp h
    obtain ⟨sj, -, h⟩ := py_bind_ok.mp h
    obtain ⟨results, -, h⟩ := py_bind_ok.mp h
    intro c hc
    obtain ⟨r, -, hr⟩ := mapM_py_mem h c hc
    exact mkFullCandidate_fields hr
  · obtain rfl := py_pure_ok.mp h
    intro c hc
    exact absurd hc (List.not_mem_nil c)

end ClientLemmas

section ExtractLemmas

theorem scoreChoices_mem {S : String → String → Nat} {q : String} :
    ∀ {choices : List Json} {ms : List (String × Nat)},
      scoreChoices S q choices = .ok ms →
        ∀ m ∈ ms, Json.str m.1 ∈ choices ∧ m.2 = S q m.1 := by
  intro choices
  induction choices with
  | nil =>
    intro ms h
    obtain rfl := Except.ok.inj h
    intro m hm
    exact absurd hm (List.not_mem_nil m)
  | cons c rest ih =>
    intro ms h
    cases c with
    | null =>
      rw [scoreChoices] at h
      intro m hm
      obtain ⟨h1, h2⟩ := ih h m hm
      exact ⟨List.mem_cons_of_mem _ h1, h2⟩
    | str s =>
      rw [scoreChoices] at h
      cases htail : scoreChoices S q rest with
      | ok tail =>
        rw [htail] at h
        obtain rfl := Except.ok.inj h
        intro m hm
        rcases List.mem_cons.mp hm with rfl | hm
        · exact ⟨List.mem_cons_self _ _, rfl⟩
        · obtain ⟨h1, h2⟩ := ih htail m hm
          exact ⟨List.mem_cons_of_mem _ h1, h2⟩
      | error e =>
        rw [htail] at h
        exact absurd h (by simp)
    | bool b => simp [scoreChoices] at h
    | num n => simp [scoreChoices] at h
    | arr xs => simp [scoreChoices] at h
    | obj kvs => simp [scoreChoices] at h

/-- When every choice is a string or null (as rapidfuzz requires), scoring
succeeds. -/
theorem scoreChoices_ok_of_wf {S : String → String → Nat} {q : String} :
    ∀ {choices : List Json}, (∀ j ∈ choices, j = .null ∨ ∃ s, j = .str s) →
      ∃ ms, scoreChoices S q choices = .ok ms := by
  intro choices
  induction choices with
  | nil => exact fun _ => ⟨[], rfl⟩
  | cons c rest ih =>
    intro hwf
    obtain ⟨ms, hms⟩ := ih fun j hj => hwf j (List.mem_cons_of_mem _ hj)
    rcases hwf c (List.mem_cons_self _ _) with rfl | ⟨s, rfl⟩
    · exact ⟨ms, by rw [scoreChoices]; exact hms⟩
    · exact ⟨(s, S q s) :: ms, by rw [scoreChoices, hms]⟩

theorem extract_inv {S : String → String → Nat} {q : String} {choices : List Json}
    {limit : Nat} {ms : List (String × Nat)} (h : extract S q choices limit = .ok ms) :
    ∃ scored, scoreChoices S q choices = .ok scored ∧
      ms = (scored.insertionSort scoreGe).take limit := by
  unfold extract at h
  obtain ⟨scored, hs, h⟩ := py_bind_ok.mp h
  obtain rfl := py_pure_ok.mp h
  exact ⟨scored, hs, rfl⟩

/-- Every pair produced by the extract model is a scored choice. -/
theorem extract_mem {S : String → String → Nat} {q : String} {choices : List Json}
    {limit : Nat} {ms : List (String × Nat)} (h : extract S q choices limit = .ok ms) :
    ∀ m ∈ ms, Json.str m.1 ∈ choices ∧ m.2 = S q m.1 := by
  obtain ⟨scored, hs, rfl⟩ := extract_inv h
  intro m hm
  have hm2 : m ∈ scored.insertionSort scoreGe := (List.take_sublist _ _).subset hm
  exact scoreChoices_mem hs m ((List.mem_insertionSort scoreGe).mp hm2)

theorem extract_length {S : String → String → Nat} {q : String} {choices : List Json}
    {limit : Nat} {ms : List (String × Nat)} (h : extract S q choices limit = .ok ms) :
    ms.length ≤ limit := by
  obtain ⟨scored, -, rfl⟩ := extract_inv h
  simp [List.length_take]

/-- The extract model's output is ordered descending by score. -/
theorem extract_sorted {S : String → String → Nat} {q : String} {choices : List Json}
    {limit : Nat} {ms : List (String × Nat)} (h : extract S q choices limit = .ok ms) :
    ms.Pairwise scoreGe := by
  obtain ⟨scored, -, rfl⟩ := extract_inv h
  exact (List.sorted_insertionSort scoreGe scored).sublist (List.take_sublist _ _)

/-- Extract succeeds whenever every choice is a string or null. -/
theorem extract_ok_of_wf {S : String → String → Nat} {q : String} {choices : List Json}
    {limit : Nat} (hwf : ∀ j ∈ choices, j = .null ∨ ∃ s, j = .str s) :
    ∃ ms, extract S q choices limit = .ok ms := by
  obtain ⟨scored, hs⟩ := scoreChoices_ok_of_wf hwf
  exact ⟨(scored.insertionSort scoreGe).take limit, by unfold extract; rw [hs]; rfl⟩

end ExtractLemmas

section RescoreLemmas

/-- Every record of the stage-3 reorder is one of the full-search records
with the fuzzy score of its title attached. -/
theorem rescore_mem {ms : List (String × Nat)} {results : List Candidate} :
    ∀ c ∈ rescore ms results, ∃ r ∈ results, ∃ m ∈ ms,
      r.title = Json.str m.1 ∧ c = { r with score := some m.2 } := by
  intro c hc
  obtain ⟨m, hm, hf⟩ := List.mem_filterMap.mp hc
  obtain ⟨r, hfind, rfl⟩ := Option.map_eq_some'.mp hf
  have hp : (r.title == Json.str m.1) = true := by
    simpa using List.find?_some hfind
  exact ⟨r, List.mem_of_find?_eq_some hfind, m, hm, eq_of_beq hp, rfl⟩

/-- With pairwise-distinct titles, each fuzzy match keeps exactly the
record carrying its title. -/
theorem rescore_keeps {ms : List (String × Nat)} {results : List Candidate}
    {r : Candidate} {t : String} {s : Nat}
    (hnodup : (results.map fun x => x.title).Nodup)
    (hr : r ∈ results) (ht : r.title = Json.str t) (hm : (t, s) ∈ ms) :
    { r with score := some s } ∈ rescore ms results := by
  have hsome : (results.find? fun x => x.title == Json.str t).isSome :=
    List.find?_isSome.mpr ⟨r, hr, by simp [ht]⟩
  obtain ⟨r', hr'⟩ := Option.isSome_iff_exists.mp hsome
  have hr'mem := List.mem_of_find?_eq_some hr'
  have hr't : r'.title = Json.str t := by
    have hp : (r'.title == Json.str t) = true := by
      simpa using List.find?_some hr'
    exact eq_of_beq hp
  obtain rfl : r' = r :=
    List.inj_on_of_nodup_map hnodup hr'mem hr (by rw [hr't, ht])
  apply List.mem_filterMap.mpr
  exact ⟨(t, s), hm, by rw [hr']; rfl⟩

theorem pairwise_filterMap_of {α β : Type} {R : α → α → Prop} {R' : β → β → Prop}
    {f : α → Option β}
    (H : ∀ a b x y, R a b → f a = some x → f b = some y → R' x y) :
    ∀ {l : List α}, l.Pairwise R → (l.filterMap f).Pairwise R' := by
  intro l
  induction l with
  | nil => intro hp; simp
  | cons a l ih =>
    intro hp
    obtain ⟨ha, hl⟩ := List.pairwise_cons.mp hp
    rw [List.filterMap_cons]
    cases hfa : f a with
    | none => exact ih hl
    | some b =>
      refine List.pairwise_cons.mpr ⟨?_, ih hl⟩
      intro y hy
      obtain ⟨a2, ha2, hfa2⟩ := List.mem_filterMap.mp hy
      exact H a a2 b y (ha a2 ha2) hfa hfa2

theorem stage2Records_mem {thr : Nat} {ms : List (String × Nat)} :
    ∀ c ∈ stage2Records thr ms, ∃ m ∈ ms, thr ≤ m.2 ∧
      c = { title := .str m.1,
            description := .str ("Coincidencia: " ++ toString m.2 ++ "%"),
            url := .str (WIKI_BASE_URL ++ "/w/" ++ strReplace m.1 " " "_"),
            score := some m.2 } := by
  intro c hc
  unfold stage2Records at hc
  obtain ⟨m, hm, rfl⟩ := List.mem_map.mp hc
  obtain ⟨hmem, hthr⟩ := List.mem_filter.mp hm
  exact ⟨m, hmem, by simpa using hthr, rfl⟩

theorem stage2Records_length {thr : Nat} {ms : List (String × Nat)} :
    (stage2Records thr ms).length ≤ ms.length := by
  unfold stage2Records
  rw [List.length_map]
  exact List.length_filter_le _ _

end RescoreLemmas

section CascadeLemmas

theorem if_nil_isEmpty {γ β : Type} {x y : β} :
    (if ([] : List γ).isEmpty = true then x else y) = x := rfl

/-- Stage 1 short-circuit: a non-empty `search` result is the cascade's
result. -/
theorem fuzzy_search_stage1 {S : String → String → Nat} {o : Oracle} {q : String}
    {thr : Nat} {rs : List Candidate}
    (hs : search o.searchResp = .ok rs) (hne : rs ≠ []) :
    fuzzy_search S o q thr = .ok rs := by
  have he : ¬(rs.isEmpty = true) := by simp [List.isEmpty_iff, hne]
  unfold fuzzy_search
  rw [hs, py_ok_bind, if_neg he, py_pure_bind, if_neg he]
  rfl

/-- Stage 2: with stage 1 empty and a non-empty title sample whose
threshold-filtered ranking is non-empty, the cascade returns the stage-2
records. -/
theorem fuzzy_search_stage2 {S : String → String → Nat} {o : Oracle} {q : String}
    {thr : Nat} {ps : List Json} {ms : List (String × Nat)}
    (hs : search o.searchResp = .ok [])
    (hps : get_all_pages o.allPagesResp = .ok ps) (hpne : ps ≠ [])
    (hex : extract S q ps 5 = .ok ms)
    (hne : stage2Records thr ms ≠ []) :
    fuzzy_search S o q thr = .ok (stage2Records thr ms) := by
  unfold fuzzy_search fuzzyStage2
  rw [hs, py_ok_bind, if_nil_isEmpty, hps, py_ok_bind,
    if_neg (by simp [List.isEmpty_iff, hpne]), hex, py_ok_bind, py_pure_bind,
    if_neg (by simp [List.isEmpty_iff, hne])]
  rfl

/-- Stage 3: with stages 1 and 2 exhausted and a non-empty full search,
the cascade returns the re-scored full-search records. -/
theorem fuzzy_search_stage3 {S : String → String → Nat} {o : Oracle} {q : String}
    {thr : Nat} {rf : List Candidate} {ms : List (String × Nat)}
    (hs : search o.searchResp = .ok [])
    (h2 : get_all_pages o.allPagesResp = .ok [] ∨
      ∃ ps ms2, get_all_pages o.allPagesResp = .ok ps ∧ ps ≠ [] ∧
        extract S q ps 5 = .ok ms2 ∧ stage2Records thr ms2 = [])
    (hrf : search_full o.searchFullResp = .ok rf) (hrfne : rf ≠ [])
    (hex : extract S q (rf.map fun r => r.title) 5 = .ok ms) :
    fuzzy_search S o q thr = .ok (rescore ms rf) := by
  unfold fuzzy_search fuzzyStage2 fuzzyStage3
  rw [hs, py_ok_bind, if_nil_isEmpty]
  rcases h2 with hap | ⟨ps, ms2, hap, hpne, hex2, h2e⟩
  · rw [hap, py_ok_bind, if_nil_isEmpty, py_pure_bind, if_nil_isEmpty, hrf, py_ok_bind,
      if_neg (by simp [List.isEmpty_iff, hrfne]), hex, py_ok_bind]
    rfl
  · rw [hap, py_ok_bind, if_neg (by simp [List.isEmpty_iff, hpne]), hex2, py_ok_bind,
      py_pure_bind, h2e, if_nil_isEmpty, hrf, py_ok_bind,
      if_neg (by simp [List.isEmpty_iff, hrfne]), hex, py_ok_bind]
    rfl

/-- Inversion: a successful cascade result came from stage 1 unchanged,
is a stage-2 record list, is empty, or is a stage-3 re-scoring of the
full-search results. -/
theorem fuzzy_search_inv {S : String → String → Nat} {o : Oracle} {q : String}
    {thr : Nat} {rs : List Candidate} (h : fuzzy_search S o q thr = .ok rs) :
    (search o.searchResp = .ok rs ∧ rs ≠ []) ∨
    (search o.searchResp = .ok [] ∧
      ∃ ps ms, get_all_pages o.allPagesResp = .ok ps ∧ extract S q ps 5 = .ok ms ∧
        rs = stage2Records thr ms ∧ rs ≠ []) ∨
    rs = [] ∨
    (∃ rf ms, search_full o.searchFullResp = .ok rf ∧ rf ≠ [] ∧
      extract S q (rf.map fun r => r.title) 5 = .ok ms ∧ rs = rescore ms rf) := by
  unfold fuzzy_search at h
  obtain ⟨results, hres, h⟩ := py_bind_ok.mp h
  obtain ⟨r1, hr1, h⟩ := py_bind_ok.mp h
  by_cases he1 : r1.isEmpty = true
  · rw [if_pos he1] at h
    unfold fuzzyStage3 at h
    obtain ⟨rf, hrf, h⟩ := py_bind_ok.mp h
    by_cases herf : rf.isEmpty = true
    · rw [if_pos herf] at h
      obtain rfl := py_pure_ok.mp h
      exact .inr (.inr (.inl (List.isEmpty_iff.mp herf)))
    · rw [if_neg herf] at h
      obtain ⟨ms, hms, h⟩ := py_bind_ok.mp h
      obtain rfl := py_pure_ok.mp h
      refine .inr (.inr (.inr ⟨rf, ms, hrf, ?_, hms, rfl⟩))
      intro hn
      exact herf (by simp [hn])
  · rw [if_neg he1] at h
    obtain rfl := py_pure_ok.mp h
    by_cases he0 : results.isEmpty = true
    · rw [if_pos he0] at hr1
      unfold fuzzyStage2 at hr1
      obtain ⟨ps, hps, hr1⟩ := py_bind_ok.mp hr1
      by_cases hpe : ps.isEmpty = true
      · rw [if_pos hpe] at hr1
        obtain rfl := py_pure_ok.mp hr1
        exact absurd rfl he1
      · rw [if_neg hpe] at hr1
        obtain ⟨ms, hms, hr1⟩ := py_bind_ok.mp hr1
        obtain rfl := py_pure_ok.mp hr1
        obtain rfl : results = [] := List.isEmpty_iff.mp he0
        refine .inr (.inl ⟨hres, ps, ms, hps, hms, rfl, ?_⟩)
        intro hn
        exact he1 (by simp [hn])
    · rw [if_neg he0] at hr1
      obtain rfl := py_pure_ok.mp hr1
      refine .inl ⟨hres, ?_⟩
      intro hn
      exact he1 (by simp [hn])

/-- Cascade output homogeneity: stage-1 lists carry no scores, stage-2 and
stage-3 lists score every record. -/
theorem fuzzy_search_scores {S : String → String → Nat} {o : Oracle} {q : String}
    {thr : Nat} {rs : List Candidate} (h : fuzzy_search S o q thr = .ok rs) :
    (∀ c ∈ rs, c.score = none) ∨ (∀ c ∈ rs, ∃ s, c.score = some s) := by
  rcases fuzzy_search_inv h with ⟨hs, -⟩ | ⟨-, ps, ms, -, -, rfl, -⟩ | rfl |
    ⟨rf, ms, -, -, -, rfl⟩
  · exact .inl (search_score_none hs)
  · refine .inr fun c hc => ?_
    obtain ⟨m, -, -, rfl⟩ := stage2Records_mem c hc
    exact ⟨m.2, rfl⟩
  · exact .inl fun c hc => absurd hc (List.not_mem_nil c)
  · refine .inr fun c hc => ?_
    obtain ⟨r, -, m, -, -, rfl⟩ := rescore_mem c hc
    exact ⟨m.2, rfl⟩

/-- Any scored record in a cascade result has a string title. -/
theorem fuzzy_search_scored_title {S : String → String → Nat} {o : Oracle} {q : String}
    {thr : Nat} {rs : List Candidate} {c : Candidate} {s : Nat}
    (h : fuzzy_search S o q thr = .ok rs) (hc : c ∈ rs) (hs : c.score = some s) :
    ∃ t, c.title = .str t := by
  rcases fuzzy_search_inv h with ⟨h1, -⟩ | ⟨-, ps, ms, -, -, rfl, -⟩ | rfl |
    ⟨rf, ms, hrf, -, -, rfl⟩
  · exact absurd hs (by rw [search_score_none h1 c hc]; simp)
  · obtain ⟨m, -, -, rfl⟩ := stage2Records_mem c hc
    exact ⟨m.1, rfl⟩
  · exact absurd hc (List.not_mem_nil c)
  · obtain ⟨r, hr, m, -, hrt, rfl⟩ := rescore_mem c hc
    exact ⟨m.1, hrt⟩

end CascadeLemmas

section CommandLemmas

/-- Direct lookup hits: the command returns that page with its categories. -/
theorem wiki_command_direct_hit {S : String → String → Nat} {o : Oracle} {q : String}
    {p : Page} {cats : List String}
    (hp : get_page_extract (o.extractResp (.str q)) q = .ok (some p))
    (hc : get_categories (o.categoriesResp (.str q)) = .ok cats) :
    wiki_command S o q = .ok (.page p cats) := by
  simp only [wiki_command, hp, py_ok_bind, hc, py_pure_ok]

/-- Direct lookup misses and the cascade is empty: not found. -/
theorem wiki_command_notFound {S : String → String → Nat} {o : Oracle} {q : String}
    (hp : get_page_extract (o.extractResp (.str q)) q = .ok none)
    (hfz : fuzzy_search S o q 60 = .ok []) :
    wiki_command S o q = .ok .notFound := by
  simp only [wiki_command, hp, py_ok_bind, hfz, py_pure_ok]

/-- Direct lookup misses and the best cascade candidate is below the
confidence bar: the candidate list is returned as suggestions. -/
theorem wiki_command_suggest {S : String → String → Nat} {o : Oracle} {q : String}
    {best : Candidate} {rest : List Candidate}
    (hp : get_page_extract (o.extractResp (.str q)) q = .ok none)
    (hfz : fuzzy_search S o q 60 = .ok (best :: rest))
    (h85 : ¬(85 ≤ best.score.getD 0)) :
    wiki_command S o q = .ok (.suggestions (best :: rest)) := by
  simp only [wiki_command, hp, py_ok_bind, hfz]
  rw [if_neg h85]
  rfl

/-- Confident re-resolution succeeds: its page is returned. -/
theorem wiki_command_confident_hit {S : String → String → Nat} {o : Oracle} {q t : String}
    {best : Candidate} {rest : List Candidate} {p : Page} {cats : List String}
    (hp : get_page_extract (o.extractResp (.str q)) q = .ok none)
    (hfz : fuzzy_search S o q 60 = .ok (best :: rest))
    (h85 : 85 ≤ best.score.getD 0)
    (ht : best.title = .str t)
    (hp2 : get_page_extract (o.extractResp (.str t)) t = .ok (some p))
    (hc : get_categories (o.categoriesResp (.str t)) = .ok cats) :
    wiki_command S o q = .ok (.page p cats) := by
  simp only [wiki_command, hp, py_ok_bind, hfz]
  rw [if_pos h85]
  simp only [ht, hp2, py_ok_bind, hc, py_pure_ok]

/-- Confident re-resolution fails: fall through to the suggestions list. -/
theorem wiki_command_confident_miss {S : String → String → Nat} {o : Oracle} {q t : String}
    {best : Candidate} {rest : List Candidate}
    (hp : get_page_extract (o.extractResp (.str q)) q = .ok none)
    (hfz : fuzzy_search S o q 60 = .ok (best :: rest))
    (h85 : 85 ≤ best.score.getD 0)
    (ht : best.title = .str t)
    (hp2 : get_page_extract (o.extractResp (.str t)) t = .ok none) :
    wiki_command S o q = .ok (.suggestions (best :: rest)) := by
  simp only [wiki_command, hp, py_ok_bind, hfz]
  rw [if_pos h85]
  simp only [ht, hp2, py_ok_bind, py_pure_ok]

/-- Stage 3 cannot raise when the full search parses (its titles are
strings, so the re-ranking scores them all). -/
theorem fuzzyStage3_ok {S : String → String → Nat} {o : Oracle} {q : String}
    (hsf : ∃ v, search_full o.searchFullResp = .ok v) :
    ∃ rs, fuzzyStage3 S o q = .ok rs := by
  obtain ⟨fv, hfv⟩ := hsf
  by_cases hfe : fv.isEmpty = true
  · exact ⟨fv, by unfold fuzzyStage3; rw [hfv, py_ok_bind, if_pos hfe]; rfl⟩
  · have hwf : ∀ j ∈ (fv.map fun r => r.title), j = Json.null ∨ ∃ s, j = Json.str s := by
      intro j hj
      obtain ⟨r, hr, rfl⟩ := List.mem_map.mp hj
      obtain ⟨⟨s, hs⟩, -⟩ := search_full_fields hfv r hr
      exact .inr ⟨s, hs⟩
    obtain ⟨ms, hms⟩ := extract_ok_of_wf hwf
    exact ⟨rescore ms fv,
      by unfold fuzzyStage3; rw [hfv, py_ok_bind, if_neg hfe, hms, py_ok_bind]; rfl⟩

/-- With stage 1 and stage 2 empty the cascade is exactly stage 3. -/
theorem fuzzy_search_eq_stage3 {S : String → String → Nat} {o : Oracle} {q : String}
    {thr : Nat}
    (hs : search o.searchResp = .ok [])
    (h2 : fuzzyStage2 S o q thr = .ok []) :
    fuzzy_search S o q thr = fuzzyStage3 S o q := by
  unfold fuzzy_search
  rw [hs, py_ok_bind, if_nil_isEmpty, h2, py_ok_bind, if_nil_isEmpty]

/-- The cascade never raises when each consulted response parses and the
title sample contains only strings (or nulls). -/
theorem fuzzy_search_ok {S : String → String → Nat} {o : Oracle} {q : String} {thr : Nat}
    (hs : ∃ v, search o.searchResp = .ok v)
    (hap : ∃ ps, get_all_pages o.allPagesResp = .ok ps ∧
      ∀ j ∈ ps, j = Json.null ∨ ∃ s, j = Json.str s)
    (hsf : ∃ v, search_full o.searchFullResp = .ok v) :
    ∃ rs, fuzzy_search S o q thr = .ok rs := by
  obtain ⟨sv, hsv⟩ := hs
  by_cases he : sv = []
  · subst he
    obtain ⟨ps, hps, hwf⟩ := hap
    by_cases hpe : ps = []
    · subst hpe
      have h2 : fuzzyStage2 S o q thr = .ok [] := by
        unfold fuzzyStage2
        rw [hps, py_ok_bind, if_nil_isEmpty]
        rfl
      obtain ⟨rs3, h3⟩ := fuzzyStage3_ok hsf
      exact ⟨rs3, (fuzzy_search_eq_stage3 hsv h2).trans h3⟩
    · obtain ⟨ms, hms⟩ := extract_ok_of_wf hwf
      by_cases h2e : stage2Records thr ms = []
      · have h2 : fuzzyStage2 S o q thr = .ok [] := by
          unfold fuzzyStage2
          rw [hps, py_ok_bind, if_neg (by simp [List.isEmpty_iff, hpe]), hms,
            py_ok_bind, h2e]
          rfl
        obtain ⟨rs3, h3⟩ := fuzzyStage3_ok hsf
        exact ⟨rs3, (fuzzy_search_eq_stage3 hsv h2).trans h3⟩
      · exact ⟨stage2Records thr ms, fuzzy_search_stage2 hsv hps hpe hms h2e⟩
  · exact ⟨sv, fuzzy_search_stage1 hsv he⟩

end CommandLemmas

section Fixtures

/-- Constant scorer standing in for WRatio on a near-miss pair
(e.g. WRatio("Kweebek", "Kweebec") ≈ 92). -/
def scorer90 : String → String → Nat := fun _ _ => 90

/-- Stage-1 opensearch response with one result. -/
def searchRespC3 : Response :=
  { status := 200, body := some (.arr [.str "Kweebec", .arr [.str "Kweebec"],
      .arr [.str "A plant race."], .arr [.str "https://hytalewiki.org/w/Kweebec"]]) }

/-- The record `search` builds from `searchRespC3`. -/
def candC3 : Candidate :=
  { title := .str "Kweebec", description := .str "A plant race.",
    url := .str "https://hytalewiki.org/w/Kweebec", score := none }

def oC3 : Oracle :=
  { searchResp := searchRespC3, allPagesResp := noResp, searchFullResp := noResp,
    extractResp := fun _ => noResp, categoriesResp := fun _ => noResp }

/-- Same stage-1 response but different, even malformed, later-stage
responses: a cascade that short-circuits never looks at them. -/
def oC3b : Oracle :=
  { searchResp := searchRespC3,
    allPagesResp := { status := 200, body := some (.num 0) },
    searchFullResp := { status := 200, body := some (.num 0) },
    extractResp := fun _ => noResp, categoriesResp := fun _ => noResp }

/-- An allpages response whose title sample is ["Kweebec"]. -/
def allPagesRespC4 : Response :=
  { status := 200, body := some (.obj [("query", .obj [("allpages",
      .arr [.obj [("title", .str "Kweebec")]])])]) }

def oC4 : Oracle :=
  { searchResp := noResp, allPagesResp := allPagesRespC4, searchFullResp := noResp,
    extractResp := fun _ => noResp, categoriesResp := fun _ => noResp }

/-- The stage-2 record for an exact match on "Kweebec". -/
def candC4 : Candidate :=
  { title := .str "Kweebec", description := .str "Coincidencia: 100%",
    url := .str "https://hytalewiki.org/w/Kweebec", score := some 100 }

/-- A full-search response with two results sharing the title "X". -/
def searchFullRespC5 : Response :=
  { status := 200, body := some (.obj [("query", .obj [("search", .arr [
      .obj [("title", .str "X"), ("snippet", .str "a")],
      .obj [("title", .str "X"), ("snippet", .str "b")]])])]) }

def oC5 : Oracle :=
  { searchResp := noResp, allPagesResp := noResp, searchFullResp := searchFullRespC5,
    extractResp := fun _ => noResp, categoriesResp := fun _ => noResp }

def candC5a : Candidate :=
  { title := .str "X", description := .str "a",
    url := .str "https://hytalewiki.org/w/X", score := none }

def candC5b : Candidate :=
  { title := .str "X", description := .str "b",
    url := .str "https://hytalewiki.org/w/X", score := none }

def candC5a2 : Candidate := { candC5a with score := some 100 }

/-- A full-search response with two distinct titles, listed with the worse
fuzzy match first. -/
def searchFullRespC5w : Response :=
  { status := 200, body := some (.obj [("query", .obj [("search", .arr [
      .obj [("title", .str "Trork"), ("snippet", .str "A brute.")],
      .obj [("title", .str "Kweebec"), ("snippet", .str "A plant race.")]])])]) }

def oC5w : Oracle :=
  { searchResp := noResp, allPagesResp := noResp, searchFullResp := searchFullRespC5w,
    extractResp := fun _ => noResp, categoriesResp := fun _ => noResp }

def candTrork : Candidate :=
  { title := .str "Trork", description := .str "A brute.",
    url := .str "https://hytalewiki.org/w/Trork", score := none }

def candKweebec : Candidate :=
  { title := .str "Kweebec", description := .str "A plant race.",
    url := .str "https://hytalewiki.org/w/Kweebec", score := none }

/-- Title sample for the confident-match scenario. -/
def allPagesRespC6 : Response :=
  { status := 200, body := some (.obj [("query", .obj [("allpages",
      .arr [.obj [("title", .str "Kweebec")]])])]) }

/-- A categories response carrying Category:Races. -/
def catRespC6 : Response :=
  { status := 200, body := some (.obj [("query", .obj [("pages", .obj [("9",
      .obj [("categories", .arr [.obj [("title", .str "Category:Races")]])])])])]) }

/-- The oracle for the confident-match scenario: direct lookup of the
typo "Kweebek" misses, the title sample offers "Kweebec", and only the
exact title "Kweebec" resolves. -/
def oC6 : Oracle :=
  { searchResp := noResp, allPagesResp := allPagesRespC6, searchFullResp := noResp,
    extractResp := fun j => if j = .str "Kweebec" then resp7 else noResp,
    categoriesResp := fun _ => catRespC6 }

/-- The stage-2 record for "Kweebec" under `scorer90`. -/
def candC6 : Candidate :=
  { title := .str "Kweebec", description := .str "Coincidencia: 90%",
    url := .str "https://hytalewiki.org/w/Kweebec", score := some 90 }

/-- An oracle whose extract endpoint answers 200 with a list payload. -/
def oBad : Oracle :=
  { searchResp := noResp, allPagesResp := noResp, searchFullResp := noResp,
    extractResp := fun _ => { status := 200, body := some (.arr []) },
    categoriesResp := fun _ => noResp }

end Fixtures

/-- C3: if stage 1 (`search`) returns a non-empty list, the cascade returns
it unchanged with no score attached to any record, and stages 2 and 3 are
not invoked: the result does not depend on the scorer, the query, the
threshold, or the stage-2/3 responses. -/
theorem cascade_stage1_short_circuit (S S2 : String → String → Nat) (o o2 : Oracle)
    (q q2 : String) (thr thr2 : Nat) (rs : List Candidate)
    (hsame : o2.searchResp = o.searchResp)
    (hs : search o.searchResp = .ok rs) (hne : rs ≠ []) :
    fuzzy_search S o q thr = .ok rs ∧
    fuzzy_search S2 o2 q2 thr2 = .ok rs ∧
    ∀ c ∈ rs, c.score = none :=
  ⟨fuzzy_search_stage1 hs hne,
   fuzzy_search_stage1 (by rw [hsame]; exact hs) hne,
   search_score_none hs⟩

/-- Witness for C3: the stage-1 result "Kweebec" is returned as-is even
when the stage-2/3 responses are malformed, under a different scorer,
query and threshold. -/
theorem cascade_stage1_short_circuit_witness :
    fuzzy_search exactScorer oC3 "Kweebec" 60 = .ok [candC3] ∧
    fuzzy_search scorer90 oC3b "Kweebek" 90 = .ok [candC3] ∧
    candC3.score = none := by
  have h := cascade_stage1_short_circuit exactScorer scorer90 oC3 oC3b "Kweebec" "Kweebek"
      60 90 [candC3] rfl rfl (by decide)
  exact ⟨h.1, h.2.1, h.2.2 candC3 (List.mem_cons_self _ _)⟩

/-- C9: the cascade's output is homogeneous — either no record carries a
score (stage 1) or every record does (stages 2 and 3). -/
theorem cascade_score_homogeneous (S : String → String → Nat) (o : Oracle) (q : String)
    (thr : Nat) (rs : List Candidate) (h : fuzzy_search S o q thr = .ok rs) :
    (∀ c ∈ rs, c.score = none) ∨ (∀ c ∈ rs, ∃ s, c.score = some s) :=
  fuzzy_search_scores h

/-- Witness for C9 at a stage-2 output. -/
theorem cascade_score_homogeneous_witness :
    (∀ c ∈ [candC4], c.score = none) ∨ (∀ c ∈ [candC4], ∃ s, c.score = some s) :=
  cascade_score_homogeneous exactScorer oC4 "Kweebec" 60 [candC4] rfl

/-- C4 (amended): every record produced by cascade stage 2 has score at
least 60, there are at most 5 records, each title comes from the title
sample, the description is the string "Coincidencia: {score}%" derived
from the score (the source's Spanish template — not the claimed
"Match: {score}%"), and the URL is synthesized from the title by replacing
spaces with underscores against the base URL. -/
theorem cascade_stage2_records (S : String → String → Nat) (o : Oracle) (q : String)
    (ps : List Json) (ms : List (String × Nat)) (rs : List Candidate)
    (hs : search o.searchResp = .ok [])
    (hps : get_all_pages o.allPagesResp = .ok ps) (hpne : ps ≠ [])
    (hex : extract S q ps 5 = .ok ms)
    (hne : stage2Records 60 ms ≠ [])
    (hrs : rs = stage2Records 60 ms) :
    fuzzy_search S o q 60 = .ok rs ∧ rs.length ≤ 5 ∧
    ∀ c ∈ rs, ∃ t s, c.title = Json.str t ∧ Json.str t ∈ ps ∧
      c.score = some s ∧ 60 ≤ s ∧
      c.description = Json.str ("Coincidencia: " ++ toString s ++ "%") ∧
      c.url = Json.str (WIKI_BASE_URL ++ "/w/" ++ strReplace t " " "_") := by
  subst hrs
  refine ⟨fuzzy_search_stage2 hs hps hpne hex hne,
    stage2Records_length.trans (extract_length hex), ?_⟩
  intro c hc
  obtain ⟨m, hm, hthr, rfl⟩ := stage2Records_mem c hc
  obtain ⟨hmem, -⟩ := extract_mem hex m hm
  exact ⟨m.1, m.2, rfl, hmem, rfl, hthr, rfl, rfl⟩

/-- C4 counterexample: with title sample ["Kweebec"] and an exact query
match (score 100), stage 2's record has the Spanish description
"Coincidencia: 100%", not the claimed "Match: 100%". -/
theorem cascade_stage2_description_spanish :
    fuzzy_search exactScorer oC4 "Kweebec" 60 = .ok [candC4] ∧
    candC4.description = Json.str "Coincidencia: 100%" ∧
    candC4.description ≠ Json.str "Match: 100%" :=
  ⟨rfl, rfl, by decide⟩

/-- Witness for C4's amended theorem at the ["Kweebec"] title sample. -/
theorem cascade_stage2_records_witness :
    fuzzy_search exactScorer oC4 "Kweebec" 60 = .ok [candC4] ∧
    [candC4].length ≤ 5 ∧
    (∃ t s, candC4.title = Json.str t ∧ Json.str t ∈ [Json.str "Kweebec"] ∧
      candC4.score = some s ∧ 60 ≤ s ∧
      candC4.description = Json.str ("Coincidencia: " ++ toString s ++ "%") ∧
      candC4.url = Json.str (WIKI_BASE_URL ++ "/w/" ++ strReplace "Kweebec" " " "_")) := by
  have h := cascade_stage2_records exactScorer oC4 "Kweebec" [.str "Kweebec"]
      [("Kweebec", 100)] [candC4] rfl rfl (by decide) rfl (by decide) rfl
  obtain ⟨t, s, h1, h2, h3, h4, h5, h6⟩ := h.2.2 candC4 (List.mem_cons_self _ _)
  obtain rfl : "Kweebec" = t := Json.str.inj h1
  exact ⟨h.1, h.2.1, "Kweebec", s, h1, h2, h3, h4, h5, h6⟩

/-- C5 (amended): in cascade stage 3, provided the full-search results
have pairwise-distinct titles, the returned list is exactly the re-scored
records: every returned record is an original record with its fuzzy score
attached and metadata preserved, every record whose title appears in the
re-rank output is kept, any record whose title is absent from the re-rank
output (the re-ranker keeps at most 5 titles) is dropped rather than kept
unscored, and the list is ordered descending by the attached score.
(Without the distinctness proviso the claim fails: see the duplicate-title
counterexample.) -/
theorem cascade_stage3_rerank (S : String → String → Nat) (o : Oracle) (q : String)
    (thr : Nat) (rf : List Candidate) (ms : List (String × Nat))
    (hs : search o.searchResp = .ok [])
    (h2 : get_all_pages o.allPagesResp = .ok [])
    (hrf : search_full o.searchFullResp = .ok rf) (hrfne : rf ≠ [])
    (hex : extract S q (rf.map fun r => r.title) 5 = .ok ms)
    (hnodup : (rf.map fun r => r.title).Nodup) :
    fuzzy_search S o q thr = .ok (rescore ms rf) ∧
    (∀ c ∈ rescore ms rf, ∃ r ∈ rf, ∃ s, (∃ t, r.title = Json.str t ∧ (t, s) ∈ ms) ∧
      c = { r with score := some s }) ∧
    (∀ r ∈ rf, ∀ t, r.title = Json.str t → ∀ s, (t, s) ∈ ms →
      { r with score := some s } ∈ rescore ms rf) ∧
    (rescore ms rf).Pairwise (fun a b => b.score.getD 0 ≤ a.score.getD 0) := by
  refine ⟨fuzzy_search_stage3 hs (Or.inl h2) hrf hrfne hex, ?_, ?_, ?_⟩
  · intro c hc
    obtain ⟨r, hr, m, hm, hrt, rfl⟩ := rescore_mem c hc
    exact ⟨r, hr, m.2, ⟨m.1, hrt, by simpa using hm⟩, rfl⟩
  · intro r hr t ht s hm
    exact rescore_keeps hnodup hr ht hm
  · refine pairwise_filterMap_of ?_ (extract_sorted hex)
    intro a b x y hab hfa hfb
    obtain ⟨ra, -, rfl⟩ := Option.map_eq_some'.mp hfa
    obtain ⟨rb, -, rfl⟩ := Option.map_eq_some'.mp hfb
    simpa [scoreGe] using hab

/-- C5 counterexample: two full-search results share the title "X". The
re-rank output contains "X" (twice), yet the second record (description
"b") is dropped from the final list — neither it nor any scored version of
it survives — while the first record is kept twice. So it is not the case
that all re-ranked full-search results are kept with metadata preserved,
nor that only titles absent from the re-rank output are dropped. -/
theorem cascade_stage3_duplicate_title_drop :
    search_full oC5.searchFullResp = .ok [candC5a, candC5b] ∧
    extract exactScorer "X" ([candC5a, candC5b].map fun r => r.title) 5 =
      .ok [("X", 100), ("X", 100)] ∧
    fuzzy_search exactScorer oC5 "X" 60 = .ok [candC5a2, candC5a2] ∧
    candC5b.title = .str "X" ∧
    candC5b ∉ [candC5a2, candC5a2] ∧
    { candC5b with score := some 100 } ∉ [candC5a2, candC5a2] :=
  ⟨rfl, rfl, rfl, rfl, by decide, by decide⟩

/-- Witness for C5's amended theorem: two distinct titles listed worse
match first come back re-ordered best-first with scores attached, and the
better record is kept. -/
theorem cascade_stage3_rerank_witness :
    fuzzy_search exactScorer oC5w "Kweebec" 60 =
      .ok [{ candKweebec with score := some 100 }, { candTrork with score := some 0 }] ∧
    { candKweebec with score := some 100 } ∈
      rescore [("Kweebec", 100), ("Trork", 0)] [candTrork, candKweebec] := by
  have h := cascade_stage3_rerank exactScorer oC5w "Kweebec" 60 [candTrork, candKweebec]
      [("Kweebec", 100), ("Trork", 0)] rfl rfl rfl (by decide) rfl (by decide)
  exact ⟨h.1, h.2.2.1 candKweebec (by decide) "Kweebec" rfl 100 (by decide)⟩

/-- C6: when the direct lookup misses and the cascade's top candidate has
score at least 85, the command re-resolves that candidate's title via
`get_page_extract` (the title is necessarily a string): if the
re-resolution yields a page, that page (with its categories) is returned
instead of the candidate list; if it returns none, the command falls
through and returns the ranked candidate list as suggestions. -/
theorem wiki_command_confident (S : String → String → Nat) (o : Oracle) (q : String)
    (best : Candidate) (rest : List Candidate) (s : Nat)
    (hmiss : get_page_extract (o.extractResp (.str q)) q = .ok none)
    (hfz : fuzzy_search S o q 60 = .ok (best :: rest))
    (hsc : best.score = some s) (h85 : 85 ≤ s) :
    ∃ t, best.title = .str t ∧
      (∀ p cats, get_page_extract (o.extractResp (.str t)) t = .ok (some p) →
        get_categories (o.categoriesResp (.str t)) = .ok cats →
        wiki_command S o q = .ok (.page p cats)) ∧
      (get_page_extract (o.extractResp (.str t)) t = .ok none →
        wiki_command S o q = .ok (.suggestions (best :: rest))) := by
  obtain ⟨t, ht⟩ := fuzzy_search_scored_title hfz (List.mem_cons_self _ _) hsc
  have h85g : 85 ≤ best.score.getD 0 := by
    rw [hsc]
    exact h85
  exact ⟨t, ht,
    fun p cats hp2 hc => wiki_command_confident_hit hmiss hfz h85g ht hp2 hc,
    fun hp2 => wiki_command_confident_miss hmiss hfz h85g ht hp2⟩

/-- Witness for C6: the typo "Kweebek" misses, the cascade's top candidate
"Kweebec" scores 90 ≥ 85, and re-resolution returns the Kweebec page with
its categories rather than a suggestions list. -/
theorem wiki_command_confident_witness :
    wiki_command scorer90 oC6 "Kweebek" = .ok (.page page7 ["Races"]) := by
  obtain ⟨t, ht, hyes, -⟩ :=
    wiki_command_confident scorer90 oC6 "Kweebek" candC6 [] 90 rfl rfl rfl (by decide)
  obtain rfl : "Kweebec" = t := Json.str.inj ht
  exact hyes page7 ["Races"] rfl rfl

/-- C8: the pipeline is deterministic in its inputs — with the same query
and pointwise-unchanged remote responses, two invocations of the /wiki
command return equal results (the pipeline has no hidden state). -/
theorem wiki_command_deterministic (S : String → String → Nat) (o o2 : Oracle) (q : String)
    (h1 : o.searchResp = o2.searchResp) (h2 : o.allPagesResp = o2.allPagesResp)
    (h3 : o.searchFullResp = o2.searchFullResp)
    (h4 : ∀ j, o.extractResp j = o2.extractResp j)
    (h5 : ∀ j, o.categoriesResp j = o2.categoriesResp j) :
    wiki_command S o q = wiki_command S o2 q := by
  have ho : o = o2 := by
    cases o
    cases o2
    congr 1
    · exact funext h4
    · exact funext h5
  rw [ho]

/-- Witness for C8 at the confident-match oracle. -/
theorem wiki_command_deterministic_witness :
    wiki_command scorer90 oC6 "Kweebek" = wiki_command scorer90 oC6 "Kweebek" :=
  wiki_command_deterministic scorer90 oC6 oC6 "Kweebek" rfl rfl rfl
    (fun _ => rfl) (fun _ => rfl)

/-- C1 (amended): for every query, provided each consulted response either
fails (non-200) or parses through its stage (and the title sample holds
only strings or nulls), the /wiki command handler returns exactly one of:
a page, a non-empty suggestions list, or the explicit not-found outcome —
no exception reaches the presentation layer. Without that proviso an
exception does propagate: see the counterexample. -/
theorem wiki_command_total (S : String → String → Nat) (o : Oracle) (q : String)
    (hex : ∀ j t, ∃ v, get_page_extract (o.extractResp j) t = .ok v)
    (hs : ∃ v, search o.searchResp = .ok v)
    (hap : ∃ ps, get_all_pages o.allPagesResp = .ok ps ∧
      ∀ j ∈ ps, j = Json.null ∨ ∃ s, j = Json.str s)
    (hsf : ∃ v, search_full o.searchFullResp = .ok v)
    (hcat : ∀ j, ∃ v, get_categories (o.categoriesResp j) = .ok v) :
    ∃ out, wiki_command S o q = .ok out ∧
      ∀ rs, out = .suggestions rs → rs ≠ [] := by
  have hsug : ∀ (b : Candidate) (r rs2 : List Candidate),
      Outcome.suggestions (b :: r) = .suggestions rs2 → rs2 ≠ [] := by
    intro b r rs2 hh
    obtain rfl := (Outcome.suggestions.inj hh).symm
    exact List.cons_ne_nil _ _
  obtain ⟨v0, hv0⟩ := hex (.str q) q
  cases v0 with
  | some p =>
    obtain ⟨cats, hcats⟩ := hcat (.str q)
    exact ⟨.page p cats, wiki_command_direct_hit hv0 hcats,
      fun rs h => Outcome.noConfusion h⟩
  | none =>
    obtain ⟨rs, hrs⟩ := fuzzy_search_ok hs hap hsf
    cases rs with
    | nil =>
      exact ⟨.notFound, wiki_command_notFound hv0 hrs, fun rs h => Outcome.noConfusion h⟩
    | cons best rest =>
      by_cases h85 : 85 ≤ best.score.getD 0
      · have hsc : ∃ s, best.score = some s := by
          cases hbs : best.score with
          | none =>
            rw [hbs] at h85
            simp [Option.getD] at h85
          | some s => exact ⟨s, rfl⟩
        obtain ⟨s, hbs⟩ := hsc
        obtain ⟨t, ht⟩ := fuzzy_search_scored_title hrs (List.mem_cons_self _ _) hbs
        obtain ⟨v2, hv2⟩ := hex (.str t) t
        cases v2 with
        | some p =>
          obtain ⟨cats, hcats⟩ := hcat (.str t)
          exact ⟨.page p cats, wiki_command_confident_hit hv0 hrs h85 ht hv2 hcats,
            fun rs h => Outcome.noConfusion h⟩
        | none =>
          exact ⟨.suggestions (best :: rest),
            wiki_command_confident_miss hv0 hrs h85 ht hv2, hsug best rest⟩
      · exact ⟨.suggestions (best :: rest),
          wiki_command_suggest hv0 hrs h85, hsug best rest⟩

/-- C1 counterexample: a 200 extract response whose JSON payload is a list
makes the very first stage raise AttributeError, and with no try/except in
the handler the exception propagates to the presentation layer instead of
any of the three outcomes. -/
theorem wiki_command_raises_on_malformed :
    wiki_command exactScorer oBad "Kweebec" = .error .attributeError := rfl

/-- Witness for C1's amended theorem at the confident-match oracle. -/
theorem wiki_command_total_witness :
    ∃ out, wiki_command scorer90 oC6 "Kweebek" = .ok out ∧
      ∀ rs, out = .suggestions rs → rs ≠ [] := by
  have hex6 : ∀ j t, ∃ v, get_page_extract (oC6.extractResp j) t = .ok v := by
    intro j t
    show ∃ v, get_page_extract (if j = .str "Kweebec" then resp7 else noResp) t = .ok v
    by_cases hj : j = .str "Kweebec"
    · rw [if_pos hj]
      exact ⟨some page7, rfl⟩
    · rw [if_neg hj]
      exact ⟨none, rfl⟩
  refine wiki_command_total scorer90 oC6 "Kweebek" hex6 ⟨[], rfl⟩
    ⟨[.str "Kweebec"], rfl, ?_⟩ ⟨[], rfl⟩ (fun _ => ⟨["Races"], rfl⟩)
  intro j hj
  obtain rfl := List.mem_singleton.mp hj
  exact .inr ⟨"Kweebec", rfl⟩

end HytaleWiki
